import Mathlib

/-
Verification development for the shioaji trading-SDK core.

The definitions below are a shallow embedding of the repository's Python
code: src/utils.py (contract-cache freshness and retention sweep),
src/base.py (the BaseModelV20 "ValueRecord" compatibility layer) and
src/shioaji.py (the Shioaji facade / session router).  Machine state is
passed explicitly; fallible operations return `Except` or report the
backend calls they made; wall-clock time is an explicit argument.
-/

namespace Shioaji

/-! ## Time model (src/utils.py, src/shioaji.py use `datetime.utcnow()`) -/

/-- A UTC timestamp at minute resolution: `day` is an absolute UTC
calendar-day ordinal, `hour`/`minute` the time of day.  This is the
granularity the repository's checks observe (`.date()`, `.hour`, and
`timedelta.days` of differences). -/
structure UtcTime where
  day : Nat
  hour : Nat
  minute : Nat
deriving DecidableEq, Repr

def UtcTime.totalMinutes (t : UtcTime) : Nat :=
  t.day * 1440 + t.hour * 60 + t.minute

/-- Python's `(utcnow - file_datetime).days`: the floor of the difference
in days (Python `timedelta.days` floor-divides, hence `Int.fdiv`). -/
def daysBetween (mtime utcnow : UtcTime) : Int :=
  Int.fdiv ((utcnow.totalMinutes : Int) - (mtime.totalMinutes : Int)) 1440

/-! ## Contract-cache freshness check (src/utils.py `check_contract_cache`) -/

/-- `check_contract_cache` from src/utils.py.  `mtime` is the persisted
file's last-modified UTC timestamp (`none` when the file does not exist),
`utcnow` the current UTC time.  Mirrors:
`if not exists: False; if utcnow.date() > mtime.date(): False;
elif utcnow.hour >= 6: if mtime.hour < 6: False; return True`. -/
def check_contract_cache (mtime : Option UtcTime) (utcnow : UtcTime) : Bool :=
  match mtime with
  | some m =>
    if m.day < utcnow.day then false
    else if 6 ≤ utcnow.hour then
      if m.hour < 6 then false
      else true
    else true
  | none => false

/-! ## Retention sweep (src/utils.py `clear_outdated_contract_cache`) -/

/-- `charsIsPrefixOf p s` decides whether the char list `p` is an initial
segment of `s` (executable model of Python `str.startswith`). -/
def charsIsPrefixOf : List Char → List Char → Bool
  | [], _ => true
  | _ :: _, [] => false
  | a :: as, b :: bs => a == b && charsIsPrefixOf as bs

def strStartsWith (s pre : String) : Bool :=
  charsIsPrefixOf pre.data s.data

/-- One file found by `contract_dir.iterdir()`: its name, its extension
(Python `Path.suffix`, e.g. ".pkl") and its last-modified time. -/
structure CacheFile where
  name : String
  suffix : String
  mtime : UtcTime
deriving DecidableEq, Repr

/-- The loop guards of `clear_outdated_contract_cache`: the file is
considered only when its suffix is ".pkl" or ".lock" and its name starts
with "contract". -/
def isCacheArtifact (f : CacheFile) : Bool :=
  (f.suffix == ".pkl" || f.suffix == ".lock") && strStartsWith f.name "contract"

/-- The deletion condition of `clear_outdated_contract_cache`:
artifact guards plus `(utcnow - file_datetime).days > keep_days`. -/
def shouldDelete (utcnow : UtcTime) (keepDays : Int) (f : CacheFile) : Bool :=
  isCacheArtifact f && keepDays < daysBetween f.mtime utcnow

/-- The `for file_path in contract_dir.iterdir()` loop of
`clear_outdated_contract_cache`.  `unlinkOk f` models whether
`file_path.unlink()` succeeds on `f`; a failing unlink raises, aborting
the loop with the remaining files untouched.  Returns the directory
contents after the loop together with the propagated exception message,
if any. -/
def sweepFiles (utcnow : UtcTime) (keepDays : Int) (unlinkOk : CacheFile → Bool) :
    List CacheFile → List CacheFile × Option String
  | [] => ([], none)
  | f :: rest =>
    if shouldDelete utcnow keepDays f then
      if unlinkOk f then sweepFiles utcnow keepDays unlinkOk rest
      else (f :: rest, some ("contract cache remove error | " ++ f.name))
    else
      let p := sweepFiles utcnow keepDays unlinkOk rest
      (f :: p.1, p.2)

/-- `clear_outdated_contract_cache` from src/utils.py: the sweep loop
wrapped in `try/except` — an exception from the loop is caught and
logged (`log.error`), never re-raised, so the function always returns;
the second component is the logged error message, `none` when no
deletion failed. -/
def clear_outdated_contract_cache (files : List CacheFile) (utcnow : UtcTime)
    (keepDays : Int) (unlinkOk : CacheFile → Bool) :
    List CacheFile × Option String :=
  sweepFiles utcnow keepDays unlinkOk files

/-! ## ValueRecord compatibility layer (src/base.py `BaseModelV20`) -/

/-- One declared field of a record: its current serialized value
(`none` models Python `None`), its declared default, and whether it has
been explicitly set (pydantic's fields-set tracking, consulted by
`exclude_unset`).  Values are modelled as JSON-safe integers. -/
structure RField where
  value : Option Int
  default : Option Int
  isSet : Bool
deriving DecidableEq, Repr

/-- A `BaseModelV20` instance: its declared fields in declaration order,
and the `__json__` cached serialized view.  An empty cache list plays the
role of the empty dict (falsy, i.e. "not filled"). -/
structure ValueRecord where
  fields : List (String × RField)
  jsonCache : List (String × Int)
deriving DecidableEq, Repr

/-- The contribution of one field to
`model_dump(mode="json", exclude_unset=True, exclude_defaults=True,
exclude_none=True)`: dropped when the value is `None`, when the field was
never set, or when the value equals the declared default. -/
def dumpEntry (nf : String × RField) : Option (String × Int) :=
  match nf.2.value with
  | none => none
  | some v => if nf.2.isSet && !(some v == nf.2.default) then some (nf.1, v) else none

/-- The `model_dump` call made by `BaseModelV20.keys` and
`BaseModelV20.__getitem__`. -/
def model_dump (r : ValueRecord) : List (String × Int) :=
  r.fields.filterMap dumpEntry

/-- The `if not self.__json__: self.__json__ = self.model_dump(...)`
step shared by `keys` and `__getitem__`. -/
def fillCache (r : ValueRecord) : ValueRecord :=
  if r.jsonCache.isEmpty then { r with jsonCache := model_dump r } else r

/-- Dict lookup `self.__json__[key]`; `none` models the `KeyError`. -/
def lookupStr : List (String × Int) → String → Option Int
  | [], _ => none
  | (n, v) :: rest, k => if n == k then some v else lookupStr rest k

/-- `BaseModelV20.keys`: fill the cache if empty, return its key set
(here: key list) together with the record carrying the filled cache. -/
def ValueRecord.keys (r : ValueRecord) : List String × ValueRecord :=
  let r' := fillCache r
  (r'.jsonCache.map Prod.fst, r')

/-- `BaseModelV20.__getitem__`: fill the cache if empty, look the key up
in it. -/
def getItem (r : ValueRecord) (key : String) : Option Int × ValueRecord :=
  let r' := fillCache r
  (lookupStr r'.jsonCache key, r')

/-- `BaseModelV20._clean_cache`:
`if self.__json__: object.__setattr__(self, "__json__", {})`. -/
def cleanCache (r : ValueRecord) : ValueRecord :=
  if r.jsonCache.isEmpty then r else { r with jsonCache := [] }

/-- The raw field write performed by pydantic's `__setattr__` (assignment
validation is off): set the field's value and mark it as set. -/
def setField (fields : List (String × RField)) (name : String) (v : Option Int) :
    List (String × RField) :=
  fields.map fun nf =>
    if nf.1 == name then (nf.1, { nf.2 with value := v, isSet := true }) else nf

/-- `BaseModelV20.__setattr__`: `self._clean_cache()` first, then the
superclass write of the named field. -/
def setAttr (r : ValueRecord) (name : String) (v : Option Int) : ValueRecord :=
  let r' := cleanCache r
  { r' with fields := setField r'.fields name v }

/-- Whether `name` names a declared field of the record (pydantic's
model-fields membership, as consulted by its `__setattr__`). -/
def ValueRecord.hasField (r : ValueRecord) (name : String) : Bool :=
  r.fields.any fun nf => nf.1 == name

/-- Account type: stock ("S") vs futures/options ("F"). -/
inductive AccountType
  | stock
  | future
deriving DecidableEq, Repr

/-- An account as read by src/shioaji.py: its type and its `signed`
flag (digital certificate activated). -/
structure Account where
  accountType : AccountType
  signed : Bool
deriving DecidableEq, Repr

/-- The contract classes `place_order` dispatches on with `isinstance`. -/
inductive ContractKind
  | future
  | option
  | stock
  | index
deriving DecidableEq, Repr

/-- A contract as read by src/shioaji.py: its class and its
`target_code` (`none` models a falsy/absent target code). -/
structure Contract where
  kind : ContractKind
  targetCode : Option String
deriving DecidableEq, Repr

/-- An order as read by src/shioaji.py: its (optional) account and its
sequence number. -/
structure Order where
  account : Option Account
  seqno : String
deriving DecidableEq, Repr

/-- A trade as read by src/shioaji.py: the order it carries. -/
structure Trade where
  order : Order
deriving DecidableEq, Repr

/-- The error kinds raised by the src/shioaji.py paths modelled here
(src/error.py: `AccountNotProvideError`, `AccountNotSignError`,
`TargetContractNotExistError`). -/
inductive SjError
  | accountNotProvide
  | accountNotSign (acc : Account)
  | targetContractNotExist
deriving DecidableEq, Repr

/-! ## Session router state (src/shioaji.py `Shioaji`) -/

/-- A backend session as observed by src/shioaji.py: its authentication
token, the person id it was logged in with, and whether trade
subscription was requested at login. -/
structure Session where
  token : String
  personId : String
  subscribeTrade : Bool
deriving DecidableEq, Repr

/-- The `Shioaji` facade state that the modelled methods read and write:
the mode flags, the default accounts, the primary session's account list,
token and person id, the lazily created implicit session
(`self._solace_implicit`), and the fetched futures catalog
(`self.Contracts.Futures`) used for target-code resolution. -/
structure ApiState where
  simulation : Bool
  simuToStag : Bool
  stockAccount : Option Account
  futoptAccount : Option Account
  solaceAccounts : List Account
  solaceToken : String
  solacePersonId : String
  solaceImplicit : Option Session
  futuresCatalog : List (String × Contract)
deriving DecidableEq, Repr

/-! ## Trade-audit trace logging (src/shioaji.py `Shioaji._trace_log`) -/

/-- The wall-clock inputs `_trace_log` reads: `utcnow().weekday()`
(0 = Monday … 6 = Sunday) and `utcnow().hour`. -/
structure Clock where
  weekday : Nat
  hour : Nat
deriving DecidableEq, Repr

/-- What one `_trace_log` call did with the audit record. -/
inductive TraceOutcome
  | skipped
  | crashed
  | sentImplicit
  | sentPrimary
deriving DecidableEq, Repr

/-- Result of one `_trace_log` call: the facade state afterwards, how
many implicit sessions the call created (0 or 1), and what happened to
the audit record. -/
structure TraceResult where
  state : ApiState
  created : Nat
  outcome : TraceOutcome
deriving DecidableEq, Repr

/-- `Shioaji._trace_log` from src/shioaji.py.  Early returns: not in
simulation mode; UTC weekday ≥ 5; UTC hour ≥ 12.  Then, when
`_simu_to_stag` is not set: collect the primary session's accounts whose
type matches the trade's order's account's type (`crashed` models the
`AttributeError` when the trade's order carries no account); if any is
unsigned, lazily create `_solace_implicit` via
`simulation_login(self._solace.session._token, person_id=self._solace._person_id,
subscribe_trade=False)` and send the record through it; if all are
signed, nothing further happens.  When `_simu_to_stag` is set, send the
record through the primary session. -/
def traceLog (st : ApiState) (now : Clock) (trade : Trade) : TraceResult :=
  if !st.simulation then ⟨st, 0, TraceOutcome.skipped⟩
  else if 5 ≤ now.weekday then ⟨st, 0, TraceOutcome.skipped⟩
  else if 12 ≤ now.hour then ⟨st, 0, TraceOutcome.skipped⟩
  else if !st.simuToStag then
    match trade.order.account with
    | none => ⟨st, 0, TraceOutcome.crashed⟩
    | some tacc =>
      if (st.solaceAccounts.filter fun acc =>
            acc.accountType == tacc.accountType).any (fun acc => !acc.signed) then
        match st.solaceImplicit with
        | none =>
          ⟨{ st with solaceImplicit := some ⟨st.solaceToken, st.solacePersonId, false⟩ },
            1, TraceOutcome.sentImplicit⟩
        | some _ => ⟨st, 0, TraceOutcome.sentImplicit⟩
      else ⟨st, 0, TraceOutcome.skipped⟩
  else ⟨st, 0, TraceOutcome.sentPrimary⟩

/-- A sequence of `_trace_log` triggers: fold `traceLog` over the events,
accumulating how many implicit sessions were created in total. -/
def traceLogRun : ApiState → List (Clock × Trade) → ApiState × Nat
  | st, [] => (st, 0)
  | st, ev :: evs =>
    let r := traceLog st ev.1 ev.2
    let p := traceLogRun r.state evs
    (p.1, r.created + p.2)

/-! ## Order placement (src/shioaji.py `Shioaji.place_order`) -/

/-- What `place_order` did: `dropped` models
`log.error("Please provide the account place to."); return None`;
`raised e` a raised exception; `forwarded c o` the call
`self._solace.place_order(c, o, ...)`. -/
inductive PlaceOrderOutcome
  | dropped
  | raised (e : SjError)
  | forwarded (contract : Contract) (order : Order)
deriving DecidableEq, Repr

/-- `Shioaji.place_order` from src/shioaji.py: when the order carries no
account, assign the default futures/options account for Future/Option
contracts and the default stock account for Stock contracts (the default
may itself be absent), and for any other contract class log an error and
return `None`; then resolve a truthy `target_code` through the futures
catalog (raising `TargetContractNotExistError` on a miss) and forward to
the backend.  (The `LEGACY_TEST` trace-log side channel after the
backend call is modelled separately by `traceLog`.) -/
def place_order (st : ApiState) (contract : Contract) (order : Order) :
    PlaceOrderOutcome :=
  match
    (if order.account.isNone then
      match contract.kind with
      | ContractKind.future => some { order with account := st.futoptAccount }
      | ContractKind.option => some { order with account := st.futoptAccount }
      | ContractKind.stock => some { order with account := st.stockAccount }
      | ContractKind.index => none
    else some order) with
  | none => PlaceOrderOutcome.dropped
  | some resolved =>
    match contract.targetCode with
    | some code =>
      match st.futuresCatalog.find? (fun p => p.1 == code) with
      | none => PlaceOrderOutcome.raised SjError.targetContractNotExist
      | some p => PlaceOrderOutcome.forwarded p.2 resolved
    | none => PlaceOrderOutcome.forwarded contract resolved

/-! ## Backend-gated account operations (src/shioaji.py) -/

/-- The backend (`self._solace`) calls the modelled methods can make. -/
inductive BackendCall
  | reserveSummary (acc : Account)
  | reserveDetail (acc : Account)
  | reserveStock (acc : Account) (c : Contract) (share : Int)
  | earmarkingDetail (acc : Account)
  | reserveEarmarking (acc : Account) (c : Contract) (share : Int) (price : Int)
  | updateStatus (acc : Option Account) (seqno : Option String)
deriving DecidableEq, Repr

/-- `Shioaji.stock_reserve_summary`: backend calls made, and the result
(`Except.error` models the raised exception). -/
def stock_reserve_summary (acc : Account) : List BackendCall × Except SjError Unit :=
  if acc.signed then ([BackendCall.reserveSummary acc], Except.ok ())
  else ([], Except.error (SjError.accountNotSign acc))

/-- `Shioaji.stock_reserve_detail`. -/
def stock_reserve_detail (acc : Account) : List BackendCall × Except SjError Unit :=
  if acc.signed then ([BackendCall.reserveDetail acc], Except.ok ())
  else ([], Except.error (SjError.accountNotSign acc))

/-- `Shioaji.reserve_stock`. -/
def reserve_stock (acc : Account) (c : Contract) (share : Int) :
    List BackendCall × Except SjError Unit :=
  if acc.signed then ([BackendCall.reserveStock acc c share], Except.ok ())
  else ([], Except.error (SjError.accountNotSign acc))

/-- `Shioaji.earmarking_detail`. -/
def earmarking_detail (acc : Account) : List BackendCall × Except SjError Unit :=
  if acc.signed then ([BackendCall.earmarkingDetail acc], Except.ok ())
  else ([], Except.error (SjError.accountNotSign acc))

/-- `Shioaji.reserve_earmarking`. -/
def reserve_earmarking (acc : Account) (c : Contract) (share : Int) (price : Int) :
    List BackendCall × Except SjError Unit :=
  if acc.signed then ([BackendCall.reserveEarmarking acc c share price], Except.ok ())
  else ([], Except.error (SjError.accountNotSign acc))

/-! ## Status update (src/shioaji.py `Shioaji.update_status`) -/

/-- `Shioaji.update_status` from src/shioaji.py: with a trade, delegate
for the trade's order's account and seqno; with an account, delegate only
when the account is signed or the SDK is in simulation mode (silently
doing nothing otherwise); with neither, do the same for each configured
default account.  Returns the list of backend calls made; the method
never raises. -/
def update_status (st : ApiState) (account : Option Account) (trade : Option Trade) :
    List BackendCall :=
  match trade with
  | some t => [BackendCall.updateStatus t.order.account (some t.order.seqno)]
  | none =>
    match account with
    | some acc =>
      if acc.signed || st.simulation then [BackendCall.updateStatus (some acc) none]
      else []
    | none =>
      (match st.stockAccount with
       | some sa =>
         if sa.signed || st.simulation then [BackendCall.updateStatus (some sa) none]
         else []
       | none => []) ++
      (match st.futoptAccount with
       | some fa =>
         if fa.signed || st.simulation then [BackendCall.updateStatus (some fa) none]
         else []
       | none => [])

/-! ## Concrete fixtures used by witnesses and counterexamples -/

/-- A signed stock account. -/
def accS : Account := ⟨AccountType.stock, true⟩

/-- An unsigned stock account. -/
def accU : Account := ⟨AccountType.stock, false⟩

/-- A trade whose order carries the signed stock account. -/
def tradeS : Trade := ⟨⟨some accS, "000001"⟩⟩

/-- A trade whose order carries the unsigned stock account. -/
def tradeU : Trade := ⟨⟨some accU, "000002"⟩⟩

/-- A clock inside the trace-log active window (Monday, 00:xx UTC). -/
def clockIn : Clock := ⟨0, 0⟩

/-- Simulation mode, reconciliation mode off, all matching accounts
signed, no implicit session, no default accounts. -/
def stSignedAll : ApiState :=
  ⟨true, false, none, none, [accS], "TOK", "PID", none, []⟩

/-- Simulation mode, reconciliation mode off, an unsigned matching
account, no implicit session. -/
def stUnsigned : ApiState :=
  ⟨true, false, none, none, [accU], "TOK", "PID", none, []⟩

/-- Live (non-simulation) mode. -/
def stLive : ApiState :=
  ⟨false, false, none, none, [accU], "TOK", "PID", none, []⟩

/-- A stock contract with no target code. -/
def cStock : Contract := ⟨ContractKind.stock, none⟩

/-- An order carrying no account. -/
def oNoAcc : Order := ⟨none, ""⟩

/-- Sweep reference time. -/
def nowC4 : UtcTime := ⟨1000, 12, 0⟩

/-- A cache artifact aged 3 days and 1 hour at `nowC4`. -/
def fOld : CacheFile := ⟨"contracts.pkl", ".pkl", ⟨997, 11, 0⟩⟩

/-- A cache artifact aged more than 10 days at `nowC4`. -/
def fDel : CacheFile := ⟨"contracts_old.pkl", ".pkl", ⟨990, 0, 0⟩⟩

/-- A record with one field `quantity` (default 0) currently set to 5,
with an unfilled cache. -/
def rQty : ValueRecord := ⟨[("quantity", ⟨some 5, some 0, true⟩)], []⟩

/-- With every unlink succeeding, the sweep deletes exactly the files
matching `shouldDelete` and logs nothing. -/
lemma sweepFiles_all_ok (utcnow : UtcTime) (keepDays : Int)
    (unlinkOk : CacheFile → Bool) (hok : ∀ g, unlinkOk g = true) :
    ∀ files : List CacheFile,
      sweepFiles utcnow keepDays unlinkOk files =
        (files.filter (fun g => !shouldDelete utcnow keepDays g), none)
  | [] => rfl
  | f :: rest => by
    have ih := sweepFiles_all_ok utcnow keepDays unlinkOk hok rest
    by_cases hd : shouldDelete utcnow keepDays f = true
    · simp [sweepFiles, hd, hok f, List.filter_cons, ih]
    · simp [sweepFiles, hd, List.filter_cons, ih]

/-- The sweep's log slot is filled exactly when some file both matches
the deletion condition and fails to unlink. -/
lemma sweepFiles_log (utcnow : UtcTime) (keepDays : Int)
    (unlinkOk : CacheFile → Bool) :
    ∀ files : List CacheFile,
      ((sweepFiles utcnow keepDays unlinkOk files).2).isSome = true ↔
        ∃ g ∈ files, shouldDelete utcnow keepDays g = true ∧ unlinkOk g = false
  | [] => by simp [sweepFiles]
  | f :: rest => by
    have ih := sweepFiles_log utcnow keepDays unlinkOk rest
    by_cases hd : shouldDelete utcnow keepDays f = true
    · by_cases hu : unlinkOk f = true
      · rw [show sweepFiles utcnow keepDays unlinkOk (f :: rest) =
            sweepFiles utcnow keepDays unlinkOk rest by simp [sweepFiles, hd, hu]]
        rw [ih]
        constructor
        · rintro ⟨g, hg, hgd, hgu⟩
          exact ⟨g, List.mem_cons_of_mem _ hg, hgd, hgu⟩
        · rintro ⟨g, hg, hgd, hgu⟩
          rcases List.mem_cons.mp hg with rfl | hg'
          · rw [hu] at hgu; cases hgu
          · exact ⟨g, hg', hgd, hgu⟩
      · rw [show sweepFiles utcnow keepDays unlinkOk (f :: rest) =
            (f :: rest, some ("contract cache remove error | " ++ f.name)) by
              simp [sweepFiles, hd, hu]]
        simp only [Option.isSome_some, true_iff]
        exact ⟨f, List.mem_cons_self _ _, hd, by simpa using hu⟩
    · rw [show sweepFiles utcnow keepDays unlinkOk (f :: rest) =
          (f :: (sweepFiles utcnow keepDays unlinkOk rest).1,
            (sweepFiles utcnow keepDays unlinkOk rest).2) by simp [sweepFiles, hd]]
      simp only []
      rw [ih]
      constructor
      · rintro ⟨g, hg, hgd, hgu⟩
        exact ⟨g, List.mem_cons_of_mem _ hg, hgd, hgu⟩
      · rintro ⟨g, hg, hgd, hgu⟩
        rcases List.mem_cons.mp hg with rfl | hg'
        · rw [hgd] at hd; cases hd rfl
        · exact ⟨g, hg', hgd, hgu⟩

/-- One `_trace_log` call either leaves the state unchanged and creates
nothing, or (only when no implicit session exists) creates exactly the
hand-off implicit session. -/
lemma traceLog_shape (st : ApiState) (now : Clock) (trade : Trade) :
    (traceLog st now trade).created = 0 ∧ (traceLog st now trade).state = st ∨
    (traceLog st now trade).created = 1 ∧ st.solaceImplicit = none ∧
      (traceLog st now trade).state =
        { st with solaceImplicit := some ⟨st.solaceToken, st.solacePersonId, false⟩ } := by
  unfold traceLog
  split
  · exact Or.inl ⟨rfl, rfl⟩
  split
  · exact Or.inl ⟨rfl, rfl⟩
  split
  · exact Or.inl ⟨rfl, rfl⟩
  split
  · split
    · exact Or.inl ⟨rfl, rfl⟩
    split
    · split
      · rename_i himp
        exact Or.inr ⟨rfl, himp, rfl⟩
      · exact Or.inl ⟨rfl, rfl⟩
    · exact Or.inl ⟨rfl, rfl⟩
  · exact Or.inl ⟨rfl, rfl⟩

/-- Outside the active window, or in live mode, `_trace_log` does
nothing: the state is unchanged, no session is created, the record is
not forwarded anywhere. -/
lemma traceLog_skip_of_window (st : ApiState) (now : Clock) (trade : Trade)
    (h : st.simulation = false ∨ 5 ≤ now.weekday ∨ 12 ≤ now.hour) :
    traceLog st now trade = ⟨st, 0, TraceOutcome.skipped⟩ := by
  by_cases hs : st.simulation = true
  · by_cases hw : 5 ≤ now.weekday
    · simp [traceLog, hs, hw]
    · by_cases hh : 12 ≤ now.hour
      · simp [traceLog, hs, hw, hh]
      · rcases h with h | h | h
        · rw [h] at hs; cases hs
        · exact absurd h hw
        · exact absurd h hh
  · have hs' : st.simulation = false := by
      cases hb : st.simulation
      · rfl
      · exact absurd hb hs
    simp [traceLog, hs']

/-- Unfolding one step of a trace-log run. -/
lemma traceLogRun_cons (st : ApiState) (ev : Clock × Trade)
    (evs : List (Clock × Trade)) :
    traceLogRun st (ev :: evs) =
      ((traceLogRun (traceLog st ev.1 ev.2).state evs).1,
        (traceLog st ev.1 ev.2).created +
          (traceLogRun (traceLog st ev.1 ev.2).state evs).2) := rfl

/-- If the implicit session already exists, a trace-log run changes
nothing and creates nothing. -/
lemma traceLogRun_some (evs : List (Clock × Trade)) :
    ∀ st : ApiState, st.solaceImplicit.isSome = true → traceLogRun st evs = (st, 0) := by
  induction evs with
  | nil => intro st _; rfl
  | cons ev rest ih =>
    intro st h
    rw [traceLogRun_cons]
    rcases traceLog_shape st ev.1 ev.2 with ⟨hc, hst⟩ | ⟨_, hnone, _⟩
    · rw [hst, hc, ih st h]; rfl
    · rw [hnone] at h; cases h

/-- A trace-log run creates at most one implicit session. -/
lemma traceLogRun_le (evs : List (Clock × Trade)) :
    ∀ st : ApiState, (traceLogRun st evs).2 ≤ 1 := by
  induction evs with
  | nil => intro st; exact Nat.zero_le 1
  | cons ev rest ih =>
    intro st
    rw [traceLogRun_cons]
    rcases traceLog_shape st ev.1 ev.2 with ⟨hc, hst⟩ | ⟨hc, _, hstate⟩
    · rw [hc, hst]
      simpa using ih st
    · rw [hc, hstate,
        traceLogRun_some rest { st with
          solaceImplicit := some ⟨st.solaceToken, st.solacePersonId, false⟩ } rfl]
      simp

/-- A trace-log run in live (non-simulation) mode creates no implicit
session. -/
lemma traceLogRun_live (evs : List (Clock × Trade)) :
    ∀ st : ApiState, st.simulation = false → (traceLogRun st evs).2 = 0 := by
  induction evs with
  | nil => intro st _; rfl
  | cons ev rest ih =>
    intro st h
    rw [traceLogRun_cons, traceLog_skip_of_window st ev.1 ev.2 (Or.inl h)]
    simpa using ih st h

/-- A trace-log run whose every trigger falls outside the active window
creates no implicit session. -/
lemma traceLogRun_window (evs : List (Clock × Trade)) :
    ∀ st : ApiState, (∀ ev ∈ evs, 5 ≤ ev.1.weekday ∨ 12 ≤ ev.1.hour) →
      (traceLogRun st evs).2 = 0 := by
  induction evs with
  | nil => intro st _; rfl
  | cons ev rest ih =>
    intro st h
    rw [traceLogRun_cons,
      traceLog_skip_of_window st ev.1 ev.2 (Or.inr (h ev (List.mem_cons_self _ _)))]
    simpa using ih st fun e he => h e (List.mem_cons_of_mem _ he)

/-- Any implicit session present after a trace-log run either was there
before the run or is the hand-off session derived from the primary
session's token with trade subscription disabled. -/
lemma traceLogRun_token (evs : List (Clock × Trade)) :
    ∀ (st : ApiState) (s : Session),
      (traceLogRun st evs).1.solaceImplicit = some s →
      st.solaceImplicit = some s ∨ s = ⟨st.solaceToken, st.solacePersonId, false⟩ := by
  induction evs with
  | nil => intro st s h; exact Or.inl h
  | cons ev rest ih =>
    intro st s h
    rw [traceLogRun_cons] at h
    rcases traceLog_shape st ev.1 ev.2 with ⟨_, hst⟩ | ⟨_, _, hstate⟩
    · rw [hst] at h
      exact ih st s h
    · rw [hstate,
        traceLogRun_some rest { st with
          solaceImplicit := some ⟨st.solaceToken, st.solacePersonId, false⟩ } rfl] at h
      simp at h
      exact Or.inr h.symm

/-- `__setattr__` always leaves the record with updated fields and an
empty (invalidated) cache. -/
lemma setAttr_eq (r : ValueRecord) (f : String) (v : Option Int) :
    setAttr r f v = ⟨setField r.fields f v, []⟩ := by
  cases r with
  | mk fs jc => cases jc <;> rfl

/-- `dumpEntry` keeps the field's name. -/
lemma dumpEntry_name (nf : String × RField) (e : String × Int)
    (h : dumpEntry nf = some e) : e.1 = nf.1 := by
  unfold dumpEntry at h
  split at h
  · cases h
  · split at h
    · obtain rfl := Option.some.inj h
      rfl
    · cases h

/-- Writing a non-default value into a field makes its dump entry the
pair of the field's name and that value. -/
lemma dumpEntry_set (n : String) (fl : RField) (v : Int)
    (hbd : (some v == fl.default) = false) :
    dumpEntry (n, { fl with value := some v, isSet := true }) = some (n, v) := by
  simp [dumpEntry, hbd]

/-- After writing a non-default value to an existing field, the rebuilt
serialized view maps that field to the new value. -/
lemma lookup_dump_set (f : String) (v : Int) :
    ∀ fs : List (String × RField),
      (fs.any fun nf => nf.1 == f) = true →
      (∀ nf ∈ fs, nf.1 = f → nf.2.default ≠ some v) →
      lookupStr (List.filterMap dumpEntry (setField fs f (some v))) f = some v := by
  intro fs
  induction fs with
  | nil => intro hhas _; simp at hhas
  | cons nf rest ih =>
    intro hhas hdef
    by_cases hn : nf.1 = f
    · have hb : (nf.1 == f) = true := by simp [hn]
      have hd : nf.2.default ≠ some v := hdef nf (List.mem_cons_self _ _) hn
      have hbd : (some v == nf.2.default) = false := by
        rw [beq_eq_false_iff_ne]
        exact fun hx => hd hx.symm
      have hsf : setField (nf :: rest) f (some v) =
          (nf.1, { nf.2 with value := some v, isSet := true }) :: setField rest f (some v) := by
        simp [setField, hn]
      rw [hsf, List.filterMap_cons_some (dumpEntry_set nf.1 nf.2 v hbd)]
      simp [lookupStr, hb]
    · have hb : (nf.1 == f) = false := by simp [hn]
      have hhas' : (rest.any fun nf => nf.1 == f) = true := by
        simp only [List.any_cons, hb, Bool.false_or] at hhas
        exact hhas
      have hdef' : ∀ p ∈ rest, p.1 = f → p.2.default ≠ some v :=
        fun p hp => hdef p (List.mem_cons_of_mem _ hp)
      have hsf : setField (nf :: rest) f (some v) = nf :: setField rest f (some v) := by
        simp [setField, hn]
      rw [hsf]
      cases hde : dumpEntry nf with
      | none =>
        rw [List.filterMap_cons_none hde]
        exact ih hhas' hdef'
      | some e =>
        rw [List.filterMap_cons_some hde]
        have he : e.1 = nf.1 := dumpEntry_name nf e hde
        have heb : (e.1 == f) = false := by rw [he]; exact hb
        have hl : lookupStr (e :: List.filterMap dumpEntry (setField rest f (some v))) f =
            lookupStr (List.filterMap dumpEntry (setField rest f (some v))) f := by
          simp [lookupStr, heb]
        rw [hl]
        exact ih hhas' hdef'

/-- A successful cache lookup entails membership in the key set. -/
lemma mem_of_lookup (k : String) (v : Int) :
    ∀ l : List (String × Int), lookupStr l k = some v → k ∈ l.map Prod.fst := by
  intro l
  induction l with
  | nil => intro h; cases h
  | cons p rest ih =>
    intro h
    unfold lookupStr at h
    by_cases hp : (p.1 == k) = true
    · have : p.1 = k := by simpa using hp
      simp [List.map_cons, this]
    · have hpf : (p.1 == k) = false := by
        cases hb : (p.1 == k)
        · rfl
        · exact absurd hb hp
      rw [hpf] at h
      simp only [Bool.false_eq_true, if_false] at h
      exact List.mem_cons_of_mem _ (ih h)

/-- C3: the freshness check accepts a persisted catalog file iff neither
rejection rule fires — it rejects when the file's last-modified calendar
date is strictly before the current UTC date, rejects when the current
UTC hour is at or after 06:00 and the file's last-modified hour is before
06:00, and otherwise accepts; in particular a file modified at 05:59 UTC
today is rejected at 06:01 UTC, and a file modified at 06:01 UTC today is
accepted at 05:59 UTC of that same day. -/
theorem contract_cache_freshness :
    (∀ m utcnow : UtcTime,
      check_contract_cache (some m) utcnow = true ↔
        ¬ m.day < utcnow.day ∧ ¬ (6 ≤ utcnow.hour ∧ m.hour < 6)) ∧
    check_contract_cache (some ⟨738000, 5, 59⟩) ⟨738000, 6, 1⟩ = false ∧
    check_contract_cache (some ⟨738000, 6, 1⟩) ⟨738000, 5, 59⟩ = true := by
  refine ⟨fun m utcnow => ?_, by decide, by decide⟩
  unfold check_contract_cache
  split_ifs <;> simp_all

/-- C4 counterexample: a persisted "contract*.pkl" artifact aged 3 days
and 1 hour — strictly older than the 3-day retention window — survives
the startup sweep, because the code compares the truncated whole-day age
`(utcnow - mtime).days` with the window. -/
theorem retention_sweep_cex :
    isCacheArtifact fOld = true ∧
    3 * 1440 < (nowC4.totalMinutes : Int) - (fOld.mtime.totalMinutes : Int) ∧
    clear_outdated_contract_cache [fOld] nowC4 3 (fun _ => true) = ([fOld], none) := by
  refine ⟨by decide, by decide, by decide⟩

/-- C4 amended: on the startup sweep, every cache or lock artifact
(".pkl"/".lock" file named "contract…") whose age in whole days exceeds
the retention window is deleted — independent of the freshness
accept/reject check, which the sweep never consults — provided each
deletion attempt succeeds; and the sweep never raises: a failed deletion
is caught and surfaced only as a logged error message, which is present
exactly when some over-age artifact fails to unlink. -/
theorem retention_sweep_amended :
    (∀ (files : List CacheFile) (utcnow : UtcTime) (keepDays : Int)
        (unlinkOk : CacheFile → Bool) (f : CacheFile),
      (∀ g, unlinkOk g = true) → f ∈ files → isCacheArtifact f = true →
      keepDays < daysBetween f.mtime utcnow →
      f ∉ (clear_outdated_contract_cache files utcnow keepDays unlinkOk).1) ∧
    (∀ (files : List CacheFile) (utcnow : UtcTime) (keepDays : Int)
        (unlinkOk : CacheFile → Bool),
      ((clear_outdated_contract_cache files utcnow keepDays unlinkOk).2).isSome = true ↔
        ∃ g ∈ files, shouldDelete utcnow keepDays g = true ∧ unlinkOk g = false) := by
  constructor
  · intro files utcnow keepDays unlinkOk f hok hf hart hage hmem
    have hdel : shouldDelete utcnow keepDays f = true := by
      unfold shouldDelete
      rw [hart]
      simpa using hage
    rw [clear_outdated_contract_cache,
      sweepFiles_all_ok utcnow keepDays unlinkOk hok] at hmem
    have hmf := List.mem_filter.mp hmem
    rw [hdel] at hmf
    simp at hmf
  · intro files utcnow keepDays unlinkOk
    exact sweepFiles_log utcnow keepDays unlinkOk files

/-- C4 witness: a concrete over-age artifact (10 days old at the sweep
time) is gone after the sweep. -/
theorem retention_sweep_amended_witness :
    fDel ∉ (clear_outdated_contract_cache [fDel] nowC4 3 (fun _ => true)).1 :=
  retention_sweep_amended.1 [fDel] nowC4 3 (fun _ => true) fDel (fun _ => rfl)
    (by decide) (by decide) (by decide)

/-- C5: each of the five signed-account-only operations
(stock_reserve_summary, stock_reserve_detail, reserve_stock,
earmarking_detail, reserve_earmarking), called with an account whose
signed flag is false, raises AccountNotSigned and makes no backend
call. -/
theorem signed_gate_ops (acc : Account) (c : Contract) (share price : Int)
    (h : acc.signed = false) :
    stock_reserve_summary acc = ([], Except.error (SjError.accountNotSign acc)) ∧
    stock_reserve_detail acc = ([], Except.error (SjError.accountNotSign acc)) ∧
    reserve_stock acc c share = ([], Except.error (SjError.accountNotSign acc)) ∧
    earmarking_detail acc = ([], Except.error (SjError.accountNotSign acc)) ∧
    reserve_earmarking acc c share price =
      ([], Except.error (SjError.accountNotSign acc)) := by
  simp [stock_reserve_summary, stock_reserve_detail, reserve_stock,
    earmarking_detail, reserve_earmarking, h]

/-- C5 witness: the five gated operations on a concrete unsigned
account. -/
theorem signed_gate_ops_witness :
    stock_reserve_summary accU = ([], Except.error (SjError.accountNotSign accU)) ∧
    stock_reserve_detail accU = ([], Except.error (SjError.accountNotSign accU)) ∧
    reserve_stock accU cStock 1 = ([], Except.error (SjError.accountNotSign accU)) ∧
    earmarking_detail accU = ([], Except.error (SjError.accountNotSign accU)) ∧
    reserve_earmarking accU cStock 1 2 =
      ([], Except.error (SjError.accountNotSign accU)) :=
  signed_gate_ops accU cStock 1 2 rfl

/-- C6: a trade-audit logging attempt is skipped entirely — no record
forwarded to any session, no implicit session created, state unchanged —
whenever the SDK is not in simulation mode, or the current UTC weekday is
a weekend day, or the current UTC hour has reached 12. -/
theorem trace_log_skip_window (st : ApiState) (now : Clock) (trade : Trade)
    (h : st.simulation = false ∨ 5 ≤ now.weekday ∨ 12 ≤ now.hour) :
    traceLog st now trade = ⟨st, 0, TraceOutcome.skipped⟩ :=
  traceLog_skip_of_window st now trade h

/-- C6 witness: a concrete live-mode call is skipped. -/
theorem trace_log_skip_window_witness :
    traceLog stLive clockIn tradeS = ⟨stLive, 0, TraceOutcome.skipped⟩ :=
  trace_log_skip_window stLive clockIn tradeS (Or.inl rfl)

/-- C10: update_status with an explicitly supplied account whose signed
flag is false, outside simulation mode, makes no backend call and
returns normally (the unsigned account is silently skipped, not rejected
with AccountNotSigned). -/
theorem update_status_unsigned_skip (st : ApiState) (acc : Account)
    (hsim : st.simulation = false) (hsig : acc.signed = false) :
    update_status st (some acc) none = [] := by
  simp [update_status, hsim, hsig]

/-- C10 witness: a concrete unsigned account in live mode. -/
theorem update_status_unsigned_skip_witness :
    update_status stLive (some accU) none = [] :=
  update_status_unsigned_skip stLive accU rfl rfl

/-- C1 counterexample: in simulation mode with the secondary
reconciliation mode not configured, inside the active window, with every
matching account on the primary session signed, the audit record is NOT
forwarded through the primary session — the call does nothing — contrary
to the claim's "otherwise forward through the primary session
directly". -/
theorem trace_log_routing_cex :
    traceLog stSignedAll clockIn tradeS = ⟨stSignedAll, 0, TraceOutcome.skipped⟩ ∧
    (traceLog stSignedAll clockIn tradeS).outcome ≠ TraceOutcome.sentPrimary := by
  decide

/-- C1 amended: for a trade-audit logging attempt inside the active
window in simulation mode with the secondary reconciliation mode not
configured — if some matching-type account on the primary session is
unsigned, the implicit session is lazily created via a hand-off login
deriving its token (and person id) from the primary session with
trade-subscription disabled, and the record is forwarded through the
implicit session (reused when it already exists); otherwise (all matching
accounts signed) the record is not forwarded anywhere — forwarding
through the primary session happens only when the reconciliation mode IS
configured. -/
theorem trace_log_routing_amended (st : ApiState) (now : Clock) (trade : Trade)
    (tacc : Account) (hsim : st.simulation = true) (hstag : st.simuToStag = false)
    (hwd : now.weekday < 5) (hhr : now.hour < 12)
    (hacc : trade.order.account = some tacc) :
    (((st.solaceAccounts.filter fun acc => acc.accountType == tacc.accountType).any
        fun acc => !acc.signed) = true →
      (st.solaceImplicit = none →
        traceLog st now trade =
          ⟨{ st with solaceImplicit := some ⟨st.solaceToken, st.solacePersonId, false⟩ },
            1, TraceOutcome.sentImplicit⟩) ∧
      (∀ s, st.solaceImplicit = some s →
        traceLog st now trade = ⟨st, 0, TraceOutcome.sentImplicit⟩)) ∧
    (((st.solaceAccounts.filter fun acc => acc.accountType == tacc.accountType).any
        fun acc => !acc.signed) = false →
      traceLog st now trade = ⟨st, 0, TraceOutcome.skipped⟩) := by
  have hw : ¬ 5 ≤ now.weekday := by omega
  have hh : ¬ 12 ≤ now.hour := by omega
  constructor
  · intro hns
    constructor
    · intro himp
      simp [traceLog, hsim, hstag, hw, hh, hacc, hns, himp]
    · intro s himp
      simp [traceLog, hsim, hstag, hw, hh, hacc, hns, himp]
  · intro hns
    simp [traceLog, hsim, hstag, hw, hh, hacc, hns]

/-- C1 witness: with a concrete unsigned matching account and no
implicit session, the record goes through the freshly created hand-off
implicit session. -/
theorem trace_log_routing_amended_witness :
    traceLog stUnsigned clockIn tradeU =
      ⟨{ stUnsigned with solaceImplicit := some ⟨"TOK", "PID", false⟩ },
        1, TraceOutcome.sentImplicit⟩ :=
  ((trace_log_routing_amended stUnsigned clockIn tradeU accU rfl rfl
    (by decide) (by decide) rfl).1 (by decide)).1 rfl

/-- C7: across every sequence of trace-log triggers, at most one
implicit session is ever created; none is created when the SDK is in
live mode or when every trigger falls outside the active window; and any
implicit session present at the end either predates the run or is the
hand-off session derived from the primary session's token with
trade-subscription disabled (never created independently). -/
theorem implicit_session_at_most_one (st : ApiState) (evs : List (Clock × Trade)) :
    (traceLogRun st evs).2 ≤ 1 ∧
    (st.simulation = false → (traceLogRun st evs).2 = 0) ∧
    ((∀ ev ∈ evs, 5 ≤ ev.1.weekday ∨ 12 ≤ ev.1.hour) → (traceLogRun st evs).2 = 0) ∧
    (∀ s, (traceLogRun st evs).1.solaceImplicit = some s →
      st.solaceImplicit = some s ∨ s = ⟨st.solaceToken, st.solacePersonId, false⟩) :=
  ⟨traceLogRun_le evs st,
   fun h => traceLogRun_live evs st h,
   fun h => traceLogRun_window evs st h,
   fun s h => traceLogRun_token evs st s h⟩

/-- C7 witness: a concrete live-mode run creates no implicit session. -/
theorem implicit_session_at_most_one_witness :
    (traceLogRun stLive [(clockIn, tradeS)]).2 = 0 :=
  (implicit_session_at_most_one stLive [(clockIn, tradeS)]).2.1 rfl

/-- C2 counterexample: place_order with a Stock contract, an order
carrying no account and no default stock account configured forwards the
order to the backend with its account still unset — it does not fail
with AccountNotProvided. -/
theorem place_order_default_account_cex :
    place_order stSignedAll cStock oNoAcc = PlaceOrderOutcome.forwarded cStock oNoAcc ∧
    place_order stSignedAll cStock oNoAcc ≠
      PlaceOrderOutcome.raised SjError.accountNotProvide := by
  decide

/-- C2 amended: for place_order with an order carrying no explicit
account — a Future or Option contract gets the default futures/options
account, a Stock contract the default stock account (in both cases the
default may itself be absent, in which case the order is still forwarded
with no account rather than failing with AccountNotProvided); only a
contract of no recognized kind makes the operation log an error and
return None. -/
theorem place_order_default_account_amended (st : ApiState) (c : Contract) (o : Order)
    (hacc : o.account = none) :
    ((c.kind = ContractKind.future ∨ c.kind = ContractKind.option) →
      c.targetCode = none →
      place_order st c o =
        PlaceOrderOutcome.forwarded c { o with account := st.futoptAccount }) ∧
    (c.kind = ContractKind.stock → c.targetCode = none →
      place_order st c o =
        PlaceOrderOutcome.forwarded c { o with account := st.stockAccount }) ∧
    (c.kind = ContractKind.index → place_order st c o = PlaceOrderOutcome.dropped) := by
  have hin : o.account.isNone = true := by rw [hacc]; rfl
  refine ⟨?_, ?_, ?_⟩
  · rintro (hk | hk) htc <;> simp [place_order, hin, hk, htc]
  · intro hk htc
    simp [place_order, hin, hk, htc]
  · intro hk
    simp [place_order, hin, hk]

/-- C2 witness: a concrete Stock order with no default stock account is
forwarded with the (absent) default assigned. -/
theorem place_order_default_account_amended_witness :
    place_order stSignedAll cStock oNoAcc =
      PlaceOrderOutcome.forwarded cStock
        { oNoAcc with account := stSignedAll.stockAccount } :=
  (place_order_default_account_amended stSignedAll cStock oNoAcc rfl).2.1 rfl rfl

/-- C8 counterexample: on a record with a `quantity` field (default 0)
currently 5, after `keys()` has filled the cache, writing `quantity`
back to its default 0 and reading again gives a `keys()` set that does
NOT contain `quantity` and a subscript read that fails — the rebuilt
view excludes default-valued fields, so a write is not always visible to
the reader as the claim states. -/
theorem value_record_cache_cex :
    (ValueRecord.keys rQty).1 = ["quantity"] ∧
    (ValueRecord.keys (setAttr (ValueRecord.keys rQty).2 "quantity" (some 0))).1 = [] ∧
    (getItem (setAttr (ValueRecord.keys rQty).2 "quantity" (some 0)) "quantity").1 =
      none := by
  decide

/-- C8 amended: every field write (including those performed by the lazy
setter) synchronously invalidates the cached serialized view — the
record's cache is empty immediately after any write — and a subscript
read of field f immediately after writing value v reflects v, and
`keys()` after the mutation contains f (whether or not `keys()` was
called before), provided v is not None and differs from f's declared
default (otherwise the rebuilt view excludes f). -/
theorem value_record_cache_amended :
    (∀ (r : ValueRecord) (f : String) (v : Option Int),
      (setAttr r f v).jsonCache = []) ∧
    (∀ (r : ValueRecord) (f : String) (v : Int),
      r.hasField f = true →
      (∀ nf ∈ r.fields, nf.1 = f → nf.2.default ≠ some v) →
      (getItem (setAttr r f (some v)) f).1 = some v ∧
      f ∈ (ValueRecord.keys (setAttr r f (some v))).1) := by
  constructor
  · intro r f v
    rw [setAttr_eq]
  · intro r f v hhas hdef
    have hlk : lookupStr (List.filterMap dumpEntry (setField r.fields f (some v))) f =
        some v :=
      lookup_dump_set f v r.fields hhas hdef
    rw [setAttr_eq]
    constructor
    · show (getItem ⟨setField r.fields f (some v), []⟩ f).1 = some v
      simpa [getItem, fillCache, model_dump] using hlk
    · have hkeys : (ValueRecord.keys ⟨setField r.fields f (some v), []⟩).1 =
          (List.filterMap dumpEntry (setField r.fields f (some v))).map Prod.fst := by
        simp [ValueRecord.keys, fillCache, model_dump]
      rw [hkeys]
      exact mem_of_lookup f v _ hlk

/-- C8 witness: writing a non-default value 7 to `quantity` is
immediately visible to subscript read and `keys()`. -/
theorem value_record_cache_amended_witness :
    (getItem (setAttr rQty "quantity" (some 7)) "quantity").1 = some 7 ∧
    "quantity" ∈ (ValueRecord.keys (setAttr rQty "quantity" (some 7))).1 :=
  value_record_cache_amended.2 rQty "quantity" 7 (by decide) (by decide)

end Shioaji
